import Mathlib

/-!
Verification of the Identification–Spectrum Correlation Engine of
`src/common/results_helpers.py` (quantms-web).

Strings of the Python source are modelled as `List Char`; Python `float`
values (retention time, m/z, score, mass, intensity) are carried through
the engine opaquely — no arithmetic is ever performed on them — so they
are modelled by `Rat`, a computable type with decidable equality.
-/

set_option autoImplicit false

namespace QuantmsWeb

abbrev Str := List Char

/-- `strStartsWith s pat`: does `s` begin with the characters of `pat`? -/
def strStartsWith : Str → Str → Bool
  | _, [] => true
  | [], _ :: _ => false
  | c :: cs, d :: ds => c = d && strStartsWith cs ds

/-- Does `pat` occur (as a contiguous substring) anywhere in `s`? -/
def occursIn (pat s : Str) : Bool :=
  match s with
  | [] => strStartsWith [] pat
  | c :: rest => strStartsWith (c :: rest) pat || occursIn pat rest

/-- Recursion core of `strReplace`.  Each step consumes at least one
character of `s`, so any `fuel ≥ s.length` makes the `0` branch
unreachable; the fuel only makes the recursion structural. -/
def strReplaceGo : Nat → Str → Str → Str
  | 0, _, _ => []
  | _ + 1, [], _ => []
  | fuel + 1, c :: rest, pat =>
    if !pat.isEmpty && strStartsWith (c :: rest) pat then
      strReplaceGo fuel ((c :: rest).drop pat.length) pat
    else
      c :: strReplaceGo fuel rest pat

/-- Python `s.replace(pat, '')`: delete every non-overlapping occurrence of
`pat` from `s`, scanning left to right.  (An empty `pat` is treated as a
no-op; the source only ever uses the non-empty patterns `_comet`, `_per`,
`_filter`.) -/
def strReplace (s pat : Str) : Str :=
  strReplaceGo s.length s pat

/-- Python `sep.join(parts)`. -/
def joinSep (sep : Str) : List Str → Str
  | [] => []
  | [x] => x
  | x :: y :: xs => x ++ sep ++ joinSep sep (y :: xs)

/-- Python `pathlib.Path(p).name`: the final path component (the part after
the last `/`; the source only applies this to plain basenames and to
`<stem>.mzML` names, which contain no slash and no trailing slash). -/
def pathName (p : Str) : Str := (p.reverse.takeWhile (fun c => c ≠ '/')).reverse

/-- Index of the last `.` in `s` (Python `s.rfind('.')`, as `Option`). -/
def lastDotIdx (s : Str) : Option Nat :=
  match s.reverse.findIdx? (fun c => c = '.') with
  | some j => some (s.length - 1 - j)
  | none => none

/-- Python `pathlib.Path(p).stem`: the final component without its suffix.
pathlib takes the suffix to be `name[i:]` for `i = name.rfind('.')` only
when `0 < i < len(name) - 1`; otherwise the stem is the whole name. -/
def pathStem (p : Str) : Str :=
  let name := pathName p
  match lastDotIdx name with
  | some i => if 0 < i ∧ i < name.length - 1 then name.take i else name
  | none => name

/-- Numeric value of a (non-empty) digit string, most significant first. -/
def digitsToNat (ds : Str) : Nat :=
  ds.foldl (fun acc c => 10 * acc + (c.toNat - '0'.toNat)) 0

/-- Does the regex `scan=(\d+)` match at the very start of `s`?
(`scan=` must be followed by at least one digit.) -/
def scanTokenHere (s : Str) : Bool :=
  strStartsWith s ('s' :: 'c' :: 'a' :: 'n' :: '=' :: []) &&
    match s.drop 5 with
    | [] => false
    | d :: _ => d.isDigit

/-- `re.search(r'scan=(\d+)', s)`: value of the maximal digit run of the
leftmost `scan=<digits>` token, if any. -/
def scanSearch (s : Str) : Option Nat :=
  match s with
  | [] => none
  | c :: rest =>
    if scanTokenHere (c :: rest) then
      some (digitsToNat (((c :: rest).drop 5).takeWhile Char.isDigit))
    else
      scanSearch rest

/-- Does `s` contain a `scan=<digits>` token anywhere? -/
def hasScanToken (s : Str) : Bool :=
  match s with
  | [] => false
  | c :: rest => scanTokenHere (c :: rest) || hasScanToken rest

/-- `extract_scan_from_ref` (results_helpers.py:72-78): extract the scan
number from a spectrum reference string; 0 when no `scan=<digits>` token. -/
def extract_scan_from_ref (spec_ref : Str) : Nat :=
  match scanSearch spec_ref with
  | some n => n
  | none => 0

/-- `extract_scan_number` (results_helpers.py:81-84): extract the scan
number from a native ID; 0 when no `scan=<digits>` token. -/
def extract_scan_number (native_id : Str) : Nat :=
  match scanSearch native_id with
  | some n => n
  | none => 0

/-- The suffix-token stripping applied by `extract_filename_from_idxml`:
Python `stem.replace('_comet','').replace('_per','').replace('_filter','')`. -/
def stripStageTokens (stem : Str) : Str :=
  strReplace (strReplace (strReplace stem ("_comet".toList)) ("_per".toList)) ("_filter".toList)

/-- `extract_filename_from_idxml` (results_helpers.py:87-92): derive the
mzML filename from the idXML filename. -/
def extract_filename_from_idxml (idxml_path : Str) : Str :=
  stripStageTokens (pathStem idxml_path) ++ ".mzML".toList

/-- One candidate peptide assignment (a pyopenms `PeptideHit`): sequence,
charge, score and the protein accessions of its peptide evidences, in
document order. -/
structure Hit where
  sequence : Str
  charge : Int
  score : Rat
  protein_evidences : List Str
deriving DecidableEq

/-- One spectrum-level identification result (a pyopenms
`PeptideIdentification`): retention time, m/z, the optional
`spectrum_reference` and `id_merge_index` meta values, and the hits in
document order.  A meta value is `none` exactly when `metaValueExists`
is false in the source. -/
structure PeptideIdentification where
  rt : Rat
  mz : Rat
  spectrum_reference : Option Str
  id_merge_index : Option Nat
  hits : List Hit
deriving DecidableEq

/-- An identification document as loaded by `IdXMLFile().load`:
the peptide identifications in document order, plus the document-level
list of source raw-data filenames (idXML embeds it in the protein
identification section; `parse_idxml` loads the protein section into
`proteins` but never reads it). -/
structure IdXMLDocument where
  embedded_spectra_data : List Str
  peptides : List PeptideIdentification
deriving DecidableEq

/-- One row of the flat PSM table built by `parse_idxml`
(results_helpers.py:127-138), field for field. -/
structure FlatPSMRecord where
  id_idx : Nat
  scan_id : Nat
  file_index : Nat
  filename : Str
  sequence : Str
  charge : Int
  mz : Rat
  rt : Rat
  score : Rat
  protein_accession : Str
deriving DecidableEq

/-- Per-entry scan id (results_helpers.py:114-120): the
`spectrum_reference` meta value when present (else `""`), run through
`extract_scan_from_ref`. -/
def entryScan (p : PeptideIdentification) : Nat :=
  extract_scan_from_ref (p.spectrum_reference.getD [])

/-- Per-entry file index (results_helpers.py:123): the `id_merge_index`
meta value when present, else 0. -/
def entryFileIndex (p : PeptideIdentification) : Nat :=
  p.id_merge_index.getD 0

/-- Per-entry resolved filename (results_helpers.py:124,131):
`spectra_data[file_index]` when the index is in range, else `""`; the
record stores `Path(filename).name` when the filename is non-empty. -/
def entryFilename (sd : List Str) (p : PeptideIdentification) : Str :=
  let filename := if entryFileIndex p < sd.length then sd.getD (entryFileIndex p) [] else []
  if filename = [] then [] else pathName filename

/-- The record appended for one hit (results_helpers.py:127-138);
`idx` is `len(records)` at the moment of the append. -/
def mkPSMRecord (idx scan_id file_index : Nat) (filename : Str) (mz rt : Rat) (h : Hit) :
    FlatPSMRecord :=
  { id_idx := idx
    scan_id := scan_id
    file_index := file_index
    filename := filename
    sequence := h.sequence
    charge := h.charge
    mz := mz
    rt := rt
    score := h.score
    protein_accession := joinSep [';'] h.protein_evidences }

/-- Inner loop of `parse_idxml` (results_helpers.py:126-138): append one
record per hit, with `id_idx = len(records)`. -/
def hitRecordsAux (scan_id file_index : Nat) (filename : Str) (mz rt : Rat) :
    List Hit → List FlatPSMRecord → List FlatPSMRecord
  | [], records => records
  | h :: hs, records =>
    hitRecordsAux scan_id file_index filename mz rt hs
      (records ++ [mkPSMRecord records.length scan_id file_index filename mz rt h])

/-- Outer loop of `parse_idxml` (results_helpers.py:113-138). -/
def psmRecordsAux (sd : List Str) : List PeptideIdentification → List FlatPSMRecord → List FlatPSMRecord
  | [], records => records
  | p :: ps, records =>
    psmRecordsAux sd ps
      (hitRecordsAux (entryScan p) (entryFileIndex p) (entryFilename sd p) p.mz p.rt p.hits records)

/-- `parse_idxml` (results_helpers.py:95-140): flatten an identification
document to the PSM table and the spectra-data filename list.
`spectra_data` is always the single filename derived from the idXML path
(line 107); the document's embedded list is never consulted.  (Line 110
builds a `filename_to_index` dict from `spectra_data`, but that local is
dead: nothing in the function reads it.) -/
def parse_idxml (idxml_path : Str) (doc : IdXMLDocument) :
    List FlatPSMRecord × List Str :=
  let spectra_data := [extract_filename_from_idxml idxml_path]
  (psmRecordsAux spectra_data doc.peptides [], spectra_data)

/-- One spectrum of a raw-data document as surfaced by pyopenms:
`getMSLevel()`, `getNativeID()`, and the two arrays of `get_peaks()`
(mass array and intensity array, kept separate exactly as the source
receives them). -/
structure Spectrum where
  ms_level : Nat
  native_id : Str
  mz_array : List Rat
  int_array : List Rat
deriving DecidableEq

/-- One row of the spectra cache built by `build_spectra_cache`
(results_helpers.py:172-178), field for field. -/
structure FlatPeakRecord where
  peak_id : Nat
  file_index : Nat
  scan_id : Nat
  mass : Rat
  intensity : Rat
deriving DecidableEq

/-- `filename_to_index`: a Python dict modelled as an insertion-ordered
association list with unique keys; lookup returns the first match. -/
abbrev FMap := List (Str × Nat)

/-- Dict lookup (`filename_to_index[name]`, as `Option`). -/
def fmapLookup (m : FMap) (key : Str) : Option Nat :=
  match m with
  | [] => none
  | (k, v) :: rest => if k = key then some v else fmapLookup rest key

/-- Innermost loop of `build_spectra_cache` (results_helpers.py:171-179):
one record per element of `zip(mz_array, int_array)`, incrementing
`peak_id` with every append. -/
def emitPeaks (file_index scan_id : Nat) :
    List (Rat × Rat) → List FlatPeakRecord × Nat → List FlatPeakRecord × Nat
  | [], st => st
  | (mz, intensity) :: rest, (records, peak_id) =>
    emitPeaks file_index scan_id rest
      (records ++ [{ peak_id := peak_id, file_index := file_index, scan_id := scan_id,
                     mass := mz, intensity := intensity }], peak_id + 1)

/-- Per-file spectrum loop of `build_spectra_cache`
(results_helpers.py:165-179): skip spectra whose MS level is not 2,
otherwise extract the scan number from the native ID and emit the peaks. -/
def emitSpectra (file_index : Nat) :
    List Spectrum → List FlatPeakRecord × Nat → List FlatPeakRecord × Nat
  | [], st => st
  | s :: rest, st =>
    if s.ms_level ≠ 2 then
      emitSpectra file_index rest st
    else
      emitSpectra file_index rest
        (emitPeaks file_index (extract_scan_number s.native_id) (s.mz_array.zip s.int_array) st)

/-- A directory entry: a raw-data document's filename (basename, as
`Path.name` yields for a file found directly in the scanned directory)
and its parsed spectra in document order. -/
abbrev MzMLFileEntry := Str × List Spectrum

/-- File loop of `build_spectra_cache` (results_helpers.py:156-179):
assign the filename a fresh index (`len(filename_to_index)`) when it is
not yet in the map, then emit the file's MS2 peaks. -/
def processFiles :
    List MzMLFileEntry → FMap → List FlatPeakRecord × Nat → (List FlatPeakRecord × Nat) × FMap
  | [], m, st => (st, m)
  | (name, specs) :: rest, m, st =>
    let m' := if fmapLookup m name = none then m ++ [(name, m.length)] else m
    let file_index := (fmapLookup m' name).getD 0
    processFiles rest m' (emitSpectra file_index specs st)

/-- Python string `<` / `sorted`: lexicographic comparison by code point. -/
def strLe (a b : Str) : Bool :=
  match a, b with
  | [], _ => true
  | _ :: _, [] => false
  | c :: cs, d :: ds =>
    if c.toNat < d.toNat then true
    else if d.toNat < c.toNat then false
    else strLe cs ds

/-- Does `s` end with `tail`?  (`glob("*.mzML")` keeps exactly the
filenames ending in `.mzML`.) -/
def strEndsWith (s tail : Str) : Bool :=
  strStartsWith s.reverse tail.reverse

/-- `sorted(mzml_dir.glob("*.mzML"))` over a modelled directory listing:
keep the `.mzML` files and sort them lexicographically by filename. -/
def globSortedMzML (dir : List MzMLFileEntry) : List MzMLFileEntry :=
  (dir.filter (fun f => strEndsWith f.1 (".mzML".toList))).insertionSort
    (fun a b => strLe a.1 b.1 = true)

/-- `build_spectra_cache` (results_helpers.py:143-181): scan a directory
of raw-data documents and build the flat peak table and the updated
filename-to-index map.  `records` starts empty and `peak_id` starts at 0
for the whole scan. -/
def build_spectra_cache (dir : List MzMLFileEntry) (filename_to_index : FMap) :
    List FlatPeakRecord × FMap :=
  let (st, m) := processFiles (globSortedMzML dir) filename_to_index ([], 0)
  (st.1, m)

example : extract_scan_from_ref ("controllerType=0 controllerNumber=1 scan=1234".toList) = 1234 := by decide
example : extract_scan_number ("...scan=1234 end".toList) = 1234 := by decide
example : extract_scan_from_ref ("hello".toList) = 0 := by decide
example : extract_filename_from_idxml ("02COVID_filter.idXML".toList) = "02COVID.mzML".toList := by decide

example :
    (parse_idxml ("a_comet.idXML".toList)
      { embedded_spectra_data := []
        peptides :=
          [{ rt := 1, mz := 2, spectrum_reference := some ("scan=5".toList),
             id_merge_index := none,
             hits := [{ sequence := "PEP".toList, charge := 2, score := 1, protein_evidences := ["P1".toList, "P2".toList] },
                      { sequence := "TIDE".toList, charge := 3, score := 2, protein_evidences := [] }] },
           { rt := 3, mz := 4, spectrum_reference := none, id_merge_index := some 7, hits := [] }] }).1.map
      (fun r => (r.id_idx, r.scan_id, r.file_index, r.filename, r.protein_accession)) =
    [(0, 5, 0, "a.mzML".toList, "P1;P2".toList), (1, 5, 0, "a.mzML".toList, "".toList)] := by decide

example :
    (build_spectra_cache
      [("b.mzML".toList, [{ ms_level := 1, native_id := "scan=1".toList, mz_array := [5], int_array := [6] },
                          { ms_level := 2, native_id := "scan=42".toList, mz_array := [1, 2, 3], int_array := [10, 20, 30] }]),
       ("a.mzML".toList, [{ ms_level := 2, native_id := "scan=7".toList, mz_array := [4], int_array := [40] }]),
       ("c.txt".toList, [{ ms_level := 2, native_id := "scan=9".toList, mz_array := [8], int_array := [80] }])]
      [("x.mzML".toList, 0)]).1.map (fun r => (r.peak_id, r.file_index, r.scan_id, r.mass)) =
    [(0, 1, 7, (4 : Rat)), (1, 2, 42, 1), (2, 2, 42, 2), (3, 2, 42, 3)] := by decide

example :
    (build_spectra_cache [("a.mzML".toList, [])] [("x.mzML".toList, 0)]).2 =
    [("x.mzML".toList, 0), ("a.mzML".toList, 1)] := by decide

/-! ### Structural lemmas for the PSM flattener -/

theorem hitRecordsAux_length (sc fi : Nat) (fn : Str) (mz rt : Rat)
    (hits : List Hit) :
    ∀ records : List FlatPSMRecord,
      (hitRecordsAux sc fi fn mz rt hits records).length = records.length + hits.length := by
  induction hits with
  | nil => intro records; simp [hitRecordsAux]
  | cons h hs ih =>
    intro records
    simp only [hitRecordsAux, ih, List.length_append, List.length_cons, List.length_nil]
    omega

theorem hitRecordsAux_map {α : Type} (sc fi : Nat) (fn : Str) (mz rt : Rat)
    (f : FlatPSMRecord → α) (g : Hit → α)
    (hfg : ∀ n h, f (mkPSMRecord n sc fi fn mz rt h) = g h)
    (hits : List Hit) :
    ∀ records : List FlatPSMRecord,
      (hitRecordsAux sc fi fn mz rt hits records).map f = records.map f ++ hits.map g := by
  induction hits with
  | nil => intro records; simp [hitRecordsAux]
  | cons h hs ih =>
    intro records
    simp only [hitRecordsAux, ih, List.map_append, List.map_cons, List.map_nil, hfg,
      List.append_assoc, List.singleton_append]

theorem hitRecordsAux_id_idx (sc fi : Nat) (fn : Str) (mz rt : Rat)
    (hits : List Hit) :
    ∀ records : List FlatPSMRecord,
      (∀ i (hi : i < records.length), (records[i]).id_idx = i) →
      ∀ i (hi : i < (hitRecordsAux sc fi fn mz rt hits records).length),
        ((hitRecordsAux sc fi fn mz rt hits records)[i]).id_idx = i := by
  induction hits with
  | nil => intro records hrec i hi; exact hrec i hi
  | cons h hs ih =>
    intro records hrec i hi
    apply ih
    intro j hj
    have hj' : j < records.length + 1 := by simpa using hj
    rcases Nat.lt_or_ge j records.length with hlt | hge
    · rw [List.getElem_append_left hlt]
      exact hrec j hlt
    · have hje : j = records.length := by omega
      subst hje
      simp [mkPSMRecord]

theorem psmRecordsAux_length (sd : List Str) (peps : List PeptideIdentification) :
    ∀ records : List FlatPSMRecord,
      (psmRecordsAux sd peps records).length =
        records.length + (peps.map (fun p => p.hits.length)).sum := by
  induction peps with
  | nil => intro records; simp [psmRecordsAux]
  | cons p ps ih =>
    intro records
    simp only [psmRecordsAux, ih, hitRecordsAux_length, List.map_cons, List.sum_cons]
    omega

theorem psmRecordsAux_map {α : Type} (sd : List Str)
    (f : FlatPSMRecord → α) (g : PeptideIdentification → Hit → α)
    (hfg : ∀ p n h,
      f (mkPSMRecord n (entryScan p) (entryFileIndex p) (entryFilename sd p) p.mz p.rt h) = g p h)
    (peps : List PeptideIdentification) :
    ∀ records : List FlatPSMRecord,
      (psmRecordsAux sd peps records).map f =
        records.map f ++ (peps.map (fun p => p.hits.map (g p))).flatten := by
  induction peps with
  | nil => intro records; simp [psmRecordsAux]
  | cons p ps ih =>
    intro records
    rw [psmRecordsAux, ih,
      hitRecordsAux_map (entryScan p) (entryFileIndex p) (entryFilename sd p) p.mz p.rt f (g p)
        (fun n h => hfg p n h)]
    simp [List.append_assoc]

theorem psmRecordsAux_id_idx (sd : List Str) (peps : List PeptideIdentification) :
    ∀ records : List FlatPSMRecord,
      (∀ i (hi : i < records.length), (records[i]).id_idx = i) →
      ∀ i (hi : i < (psmRecordsAux sd peps records).length),
        ((psmRecordsAux sd peps records)[i]).id_idx = i := by
  induction peps with
  | nil => intro records hrec i hi; exact hrec i hi
  | cons p ps ih =>
    intro records hrec i hi
    exact ih _ (hitRecordsAux_id_idx _ _ _ _ _ _ _ hrec) i hi

/-! ### Structural lemmas for the spectra cache builder -/

/-- Peak count that one file's spectrum list contributes: one record per
element of `zip(mz_array, int_array)` of each MS-level-2 spectrum. -/
def spectraPeakCount (specs : List Spectrum) : Nat :=
  ((specs.filter (fun s => s.ms_level = 2)).map
    (fun s => min s.mz_array.length s.int_array.length)).sum

/-- Invariant tying the running `peak_id` counter to the record list:
the counter equals the number of records, and every record's `peak_id`
is its position. -/
def PeakInv (st : List FlatPeakRecord × Nat) : Prop :=
  st.2 = st.1.length ∧ ∀ i (hi : i < st.1.length), (st.1[i]).peak_id = i

theorem emitPeaks_length (fi sc : Nat) (pairs : List (Rat × Rat)) :
    ∀ st : List FlatPeakRecord × Nat,
      (emitPeaks fi sc pairs st).1.length = st.1.length + pairs.length ∧
      (emitPeaks fi sc pairs st).2 = st.2 + pairs.length := by
  induction pairs with
  | nil => intro st; simp [emitPeaks]
  | cons pr rest ih =>
    intro st
    obtain ⟨records, pid⟩ := st
    obtain ⟨mz, intensity⟩ := pr
    have := ih (records ++ [{ peak_id := pid, file_index := fi, scan_id := sc,
                              mass := mz, intensity := intensity }], pid + 1)
    simp only [emitPeaks]
    simp only [this.1, this.2, List.length_append, List.length_cons, List.length_nil]
    omega

theorem emitPeaks_inv (fi sc : Nat) (pairs : List (Rat × Rat)) :
    ∀ st : List FlatPeakRecord × Nat, PeakInv st → PeakInv (emitPeaks fi sc pairs st) := by
  induction pairs with
  | nil => intro st hst; exact hst
  | cons pr rest ih =>
    intro st hst
    obtain ⟨records, pid⟩ := st
    obtain ⟨mz, intensity⟩ := pr
    have h1 : pid = records.length := hst.1
    apply ih
    constructor
    · simp [h1]
    · intro j hj
      have hj' : j < records.length + 1 := by simpa using hj
      rcases Nat.lt_or_ge j records.length with hlt | hge
      · rw [List.getElem_append_left hlt]
        exact hst.2 j hlt
      · have hje : j = records.length := by omega
        subst hje
        simp [h1]

theorem emitSpectra_length (fi : Nat) (specs : List Spectrum) :
    ∀ st : List FlatPeakRecord × Nat,
      (emitSpectra fi specs st).1.length = st.1.length + spectraPeakCount specs := by
  induction specs with
  | nil => intro st; simp [emitSpectra, spectraPeakCount]
  | cons s rest ih =>
    intro st
    by_cases hms : s.ms_level = 2
    · have hcount : spectraPeakCount (s :: rest) =
          min s.mz_array.length s.int_array.length + spectraPeakCount rest := by
        simp [spectraPeakCount, List.filter_cons, hms]
      rw [hcount]
      have hcond : ¬ (s.ms_level ≠ 2) := by simp [hms]
      simp only [emitSpectra, if_neg hcond]
      rw [ih]
      rw [(emitPeaks_length fi (extract_scan_number s.native_id) (s.mz_array.zip s.int_array) st).1]
      simp [List.length_zip]
      omega
    · have hcount : spectraPeakCount (s :: rest) = spectraPeakCount rest := by
        simp [spectraPeakCount, List.filter_cons, hms]
      rw [hcount]
      simp only [emitSpectra, if_pos hms]
      exact ih st

theorem emitSpectra_inv (fi : Nat) (specs : List Spectrum) :
    ∀ st : List FlatPeakRecord × Nat, PeakInv st → PeakInv (emitSpectra fi specs st) := by
  induction specs with
  | nil => intro st hst; exact hst
  | cons s rest ih =>
    intro st hst
    by_cases hms : s.ms_level = 2
    · have hcond : ¬ (s.ms_level ≠ 2) := by simp [hms]
      simp only [emitSpectra, if_neg hcond]
      exact ih _ (emitPeaks_inv _ _ _ st hst)
    · simp only [emitSpectra, if_pos hms]
      exact ih st hst

theorem processFiles_length (files : List MzMLFileEntry) :
    ∀ (m : FMap) (st : List FlatPeakRecord × Nat),
      ((processFiles files m st).1).1.length =
        st.1.length + (files.map (fun f => spectraPeakCount f.2)).sum := by
  induction files with
  | nil => intro m st; simp [processFiles]
  | cons f rest ih =>
    intro m st
    obtain ⟨name, specs⟩ := f
    simp only [processFiles, ih, emitSpectra_length, List.map_cons, List.sum_cons]
    omega

theorem processFiles_inv (files : List MzMLFileEntry) :
    ∀ (m : FMap) (st : List FlatPeakRecord × Nat),
      PeakInv st → PeakInv ((processFiles files m st).1) := by
  induction files with
  | nil => intro m st hst; exact hst
  | cons f rest ih =>
    intro m st hst
    obtain ⟨name, specs⟩ := f
    exact ih _ _ (emitSpectra_inv _ _ st hst)

theorem fmapLookup_append (m e : FMap) (k : Str) (v : Nat)
    (h : fmapLookup m k = some v) : fmapLookup (m ++ e) k = some v := by
  induction m with
  | nil => simp [fmapLookup] at h
  | cons kv rest ih =>
    obtain ⟨k', v'⟩ := kv
    by_cases hk : k' = k
    · simp only [fmapLookup, if_pos hk] at h
      simp only [List.cons_append, fmapLookup, if_pos hk]
      exact h
    · simp only [fmapLookup, if_neg hk] at h
      simp only [List.cons_append, fmapLookup, if_neg hk]
      exact ih h

theorem processFiles_fmap (files : List MzMLFileEntry) :
    ∀ (m : FMap) (st : List FlatPeakRecord × Nat),
      ∃ ext : FMap, (processFiles files m st).2 = m ++ ext ∧
        ∀ j (hj : j < ext.length), (ext[j]).2 = m.length + j := by
  induction files with
  | nil =>
    intro m st
    exact ⟨[], by simp [processFiles], by intro j hj; simp at hj⟩
  | cons f rest ih =>
    intro m st
    obtain ⟨name, specs⟩ := f
    by_cases hmem : fmapLookup m name = none
    · obtain ⟨ext, hext, hidx⟩ := ih (m ++ [(name, m.length)]) (emitSpectra
        ((fmapLookup (m ++ [(name, m.length)]) name).getD 0) specs st)
      refine ⟨(name, m.length) :: ext, ?_, ?_⟩
      · simp only [processFiles, if_pos hmem]
        rw [hext]
        simp
      · intro j hj
        cases j with
        | zero => simp
        | succ j' =>
          have hj' : j' < ext.length := by simpa using hj
          have := hidx j' hj'
          simp only [List.getElem_cons_succ, this, List.length_append, List.length_cons,
            List.length_nil]
          omega
    · obtain ⟨ext, hext, hidx⟩ := ih m (emitSpectra ((fmapLookup m name).getD 0) specs st)
      refine ⟨ext, ?_, hidx⟩
      simp only [processFiles, if_neg hmem]
      exact hext

/-- Sorting the globbed listing only permutes it. -/
theorem globSortedMzML_perm (dir : List MzMLFileEntry) :
    List.Perm (globSortedMzML dir) (dir.filter (fun f => strEndsWith f.1 (".mzML".toList))) :=
  List.perm_insertionSort _ _

/-- Total record count of one directory scan: the sum, over the `.mzML`
files of the listing, of the per-file MS2 peak counts. -/
theorem build_spectra_cache_length (dir : List MzMLFileEntry) (m : FMap) :
    (build_spectra_cache dir m).1.length =
      ((dir.filter (fun f => strEndsWith f.1 (".mzML".toList))).map
        (fun f => spectraPeakCount f.2)).sum := by
  show ((processFiles (globSortedMzML dir) m ([], 0)).1).1.length = _
  rw [processFiles_length]
  simp only [List.length_nil, Nat.zero_add]
  exact ((globSortedMzML_perm dir).map (fun f => spectraPeakCount f.2)).sum_eq

/-- A string with no replaced occurrence comes back unchanged. -/
theorem strReplaceGo_of_not_occurs (pat : Str) :
    ∀ (s : Str) (fuel : Nat), s.length ≤ fuel → occursIn pat s = false →
      strReplaceGo fuel s pat = s := by
  intro s
  induction s with
  | nil =>
    intro fuel _ _
    cases fuel <;> rfl
  | cons c rest ih =>
    intro fuel hfuel hocc
    cases fuel with
    | zero => simp at hfuel
    | succ f =>
      have hocc' := hocc
      simp only [occursIn, Bool.or_eq_false_iff] at hocc'
      have hcond : (!pat.isEmpty && strStartsWith (c :: rest) pat) = false := by
        simp [hocc'.1]
      simp only [strReplaceGo, hcond, Bool.false_eq_true, if_false]
      rw [ih f (by simpa using hfuel) hocc'.2]

/-- `strReplace` is the identity when the pattern does not occur. -/
theorem strReplace_of_not_occurs (s pat : Str) (h : occursIn pat s = false) :
    strReplace s pat = s :=
  strReplaceGo_of_not_occurs pat s s.length (Nat.le_refl _) h

/-- `re.search` finds nothing when no `scan=<digits>` token occurs. -/
theorem scanSearch_eq_none (s : Str) (h : hasScanToken s = false) :
    scanSearch s = none := by
  induction s with
  | nil => rfl
  | cons c rest ih =>
    simp only [hasScanToken, Bool.or_eq_false_iff] at h
    simp only [scanSearch, h.1, Bool.false_eq_true, if_false]
    exact ih h.2

/-! ### Claim theorems -/

/-- C1: `parse_idxml` emits exactly one FlatPSMRecord per Hit in
document-then-hit order, with `id_idx` equal to the record's zero-based
emission position; the number of rows equals the sum of hit counts over
all entries (zero-hit entries contribute nothing) and the `id_idx`
values are the contiguous range `0..n-1`. -/
theorem c1_flattener_one_record_per_hit (path : Str) (doc : IdXMLDocument) :
    (parse_idxml path doc).1.length = (doc.peptides.map (fun p => p.hits.length)).sum ∧
    (∀ i (hi : i < (parse_idxml path doc).1.length), ((parse_idxml path doc).1[i]).id_idx = i) ∧
    (parse_idxml path doc).1.map (fun r => (r.sequence, r.charge, r.score)) =
      (doc.peptides.map (fun p => p.hits.map (fun h => (h.sequence, h.charge, h.score)))).flatten := by
  refine ⟨?_, ?_, ?_⟩
  · show (psmRecordsAux _ doc.peptides []).length = _
    rw [psmRecordsAux_length]
    simp
  · intro i hi
    exact psmRecordsAux_id_idx _ doc.peptides [] (fun j hj => by simp at hj) i hi
  · show (psmRecordsAux _ doc.peptides []).map _ = _
    rw [psmRecordsAux_map _ _ (fun _ h => (h.sequence, h.charge, h.score)) (fun p n h => rfl)]
    simp

/-- Concrete document for the C1 witness: entry 1 has two hits, entry 2
has none. -/
def docC1 : IdXMLDocument :=
  { embedded_spectra_data := []
    peptides :=
      [{ rt := 1, mz := 2, spectrum_reference := some ("scan=5".toList), id_merge_index := none,
         hits := [{ sequence := "PEP".toList, charge := 2, score := 1, protein_evidences := [] },
                  { sequence := "TIDE".toList, charge := 3, score := 2, protein_evidences := [] }] },
       { rt := 3, mz := 4, spectrum_reference := none, id_merge_index := none, hits := [] }] }

/-- C1 witness: the theorem applied to a concrete two-hit document. -/
theorem c1_flattener_one_record_per_hit_witness :
    (parse_idxml ("a.idXML".toList) docC1).1.length =
      (docC1.peptides.map (fun p => p.hits.length)).sum ∧
    ((parse_idxml ("a.idXML".toList) docC1).1.get ⟨1, by decide⟩).id_idx = 1 := by
  refine ⟨(c1_flattener_one_record_per_hit ("a.idXML".toList) docC1).1, ?_⟩
  have h := (c1_flattener_one_record_per_hit ("a.idXML".toList) docC1).2.1 1 (by decide)
  simpa using h

/-- C6: the two scan-number extractors implement one and the same rule —
value of the digits of the first `scan=<digits>` token, else 0 — and
agree on every input. -/
theorem c6_scan_extractors_agree :
    (∀ s : Str, extract_scan_from_ref s = extract_scan_number s) ∧
    extract_scan_from_ref ("controllerType=0 controllerNumber=1 scan=1234".toList) = 1234 ∧
    extract_scan_number ("...scan=1234 end".toList) = 1234 ∧
    extract_scan_from_ref ("a scan=12 b scan=99".toList) = 12 ∧
    (∀ s : Str, hasScanToken s = false → extract_scan_from_ref s = 0) := by
  refine ⟨fun s => rfl, by decide, by decide, by decide, ?_⟩
  intro s h
  simp [extract_scan_from_ref, scanSearch_eq_none s h]

/-- C6 witness: a string with no `scan=<digits>` token yields 0. -/
theorem c6_scan_extractors_agree_witness :
    hasScanToken ("controllerType=0 controllerNumber=1".toList) = false ∧
    extract_scan_from_ref ("controllerType=0 controllerNumber=1".toList) = 0 :=
  ⟨by decide, c6_scan_extractors_agree.2.2.2.2 _ (by decide)⟩

/-- C8: the derived candidate source filename is the idXML path's stem
with the stage tokens `_comet`, `_per`, `_filter` stripped, plus
`.mzML`; a stem containing none of the tokens is carried over
unchanged. -/
theorem c8_filename_derivation (p : Str) :
    extract_filename_from_idxml p = stripStageTokens (pathStem p) ++ ".mzML".toList ∧
    extract_filename_from_idxml ("02COVID_filter.idXML".toList) = "02COVID.mzML".toList ∧
    (occursIn ("_comet".toList) (pathStem p) = false →
     occursIn ("_per".toList) (pathStem p) = false →
     occursIn ("_filter".toList) (pathStem p) = false →
     extract_filename_from_idxml p = pathStem p ++ ".mzML".toList) := by
  refine ⟨rfl, by decide, ?_⟩
  intro h1 h2 h3
  unfold extract_filename_from_idxml stripStageTokens
  rw [strReplace_of_not_occurs _ _ h1, strReplace_of_not_occurs _ _ h2,
    strReplace_of_not_occurs _ _ h3]

/-- C8 witness: a token-free stem passes through unchanged. -/
theorem c8_filename_derivation_witness :
    occursIn ("_comet".toList) (pathStem ("sample.idXML".toList)) = false ∧
    extract_filename_from_idxml ("sample.idXML".toList) =
      pathStem ("sample.idXML".toList) ++ ".mzML".toList :=
  ⟨by decide,
   (c8_filename_derivation ("sample.idXML".toList)).2.2 (by decide) (by decide) (by decide)⟩

/-- C10: each record's `protein_accession` is the hit's accessions
joined with `;`, and a hit with no protein evidences yields the empty
string (a present, empty value — the field is total). -/
theorem c10_protein_accession_join (path : Str) (doc : IdXMLDocument) :
    (parse_idxml path doc).1.map (fun r => r.protein_accession) =
      (doc.peptides.map (fun p => p.hits.map
        (fun h => joinSep [';'] h.protein_evidences))).flatten ∧
    (∀ h : Hit, h.protein_evidences = [] → joinSep [';'] h.protein_evidences = []) := by
  constructor
  · show (psmRecordsAux _ doc.peptides []).map _ = _
    rw [psmRecordsAux_map _ _ (fun _ h => joinSep [';'] h.protein_evidences) (fun p n h => rfl)]
    simp
  · intro h hh
    rw [hh]
    rfl

/-- Concrete document for the C10 witness: one hit with two evidences,
one hit with none. -/
def docC10 : IdXMLDocument :=
  { embedded_spectra_data := []
    peptides :=
      [{ rt := 1, mz := 2, spectrum_reference := none, id_merge_index := none,
         hits := [{ sequence := "K".toList, charge := 1, score := 0,
                    protein_evidences := ["P1".toList, "P2".toList] },
                  { sequence := "R".toList, charge := 1, score := 0,
                    protein_evidences := [] }] }] }

/-- C10 witness: `P1;P2` for two evidences, `""` for none. -/
theorem c10_protein_accession_join_witness :
    (parse_idxml ("a.idXML".toList) docC10).1.map (fun r => r.protein_accession) =
      (docC10.peptides.map (fun p => p.hits.map
        (fun h => joinSep [';'] h.protein_evidences))).flatten ∧
    joinSep [';'] (Hit.protein_evidences
      { sequence := "R".toList, charge := 1, score := 0, protein_evidences := [] }) = [] :=
  ⟨(c10_protein_accession_join ("a.idXML".toList) docC10).1,
   (c10_protein_accession_join ("a.idXML".toList) docC10).2 _ rfl⟩

/-- Concrete document for the C2 counterexample: it embeds a non-empty
source-filename list that differs from the derived name. -/
def docC2 : IdXMLDocument :=
  { embedded_spectra_data := ["sample.mzML".toList]
    peptides :=
      [{ rt := 0, mz := 0, spectrum_reference := none, id_merge_index := none,
         hits := [{ sequence := "K".toList, charge := 1, score := 0,
                    protein_evidences := [] }] }] }

/-- C2 counterexample: the document embeds the non-empty list
`["sample.mzML"]`, yet `parse_idxml` returns the list derived from the
idXML filename (`run.mzML`) and resolves records to it — the embedded
list does not take precedence. -/
theorem c2_counterexample :
    docC2.embedded_spectra_data = ["sample.mzML".toList] ∧
    docC2.embedded_spectra_data ≠ [] ∧
    (parse_idxml ("run_comet.idXML".toList) docC2).2 = ["run.mzML".toList] ∧
    (parse_idxml ("run_comet.idXML".toList) docC2).1.map (fun r => r.filename) =
      ["run.mzML".toList] ∧
    "run.mzML".toList ≠ "sample.mzML".toList := by decide

/-- C2 amended: `parse_idxml` always uses the filename derived from the
identification document's own filename; the embedded source-filename
list is never consulted — the output is independent of it. -/
theorem c2_amended_derived_name_always_used (path : Str) (embedded : List Str)
    (peps : List PeptideIdentification) :
    (parse_idxml path { embedded_spectra_data := embedded, peptides := peps }).2 =
      [extract_filename_from_idxml path] ∧
    parse_idxml path { embedded_spectra_data := embedded, peptides := peps } =
      parse_idxml path { embedded_spectra_data := [], peptides := peps } :=
  ⟨rfl, rfl⟩

/-- Concrete input for the C3 counterexample: one MS2 spectrum whose
mass array has 2 elements but whose intensity array has only 1. -/
def dirC3 : List MzMLFileEntry :=
  [("a.mzML".toList,
    [{ ms_level := 2, native_id := "scan=7".toList, mz_array := [1, 2], int_array := [10] }])]

/-- C3 counterexample: on a spectrum with mismatched array lengths
(2 masses, 1 intensity) the build completes normally and emits exactly
one truncated record — the pair `(2, 10)` is dropped, no failure is
raised. -/
theorem c3_counterexample :
    (dirC3.map (fun f => f.2.map (fun s => (s.mz_array.length, s.int_array.length)))) =
      [[(2, 1)]] ∧
    (build_spectra_cache dirC3 []).1.map
      (fun r => (r.peak_id, r.file_index, r.scan_id, r.mass, r.intensity)) =
      [(0, 0, 7, (1 : Rat), (10 : Rat))] := by decide

/-- C3 amended: on a spectrum whose mass and intensity arrays differ in
length, `build_spectra_cache` does not fail; `zip` silently truncates to
the shorter array, so the spectrum contributes
`min |mz_array| |int_array|` records. -/
theorem c3_amended_zip_truncates (name : Str) (s : Spectrum) (m : FMap)
    (hname : strEndsWith name (".mzML".toList) = true) (hms : s.ms_level = 2) :
    (build_spectra_cache [(name, [s])] m).1.length =
      min s.mz_array.length s.int_array.length := by
  rw [build_spectra_cache_length]
  have hname' : strEndsWith name ('.' :: 'm' :: 'z' :: 'M' :: 'L' :: []) = true := hname
  simp [List.filter_cons, hname', spectraPeakCount, hms]

/-- C3 witness: the mismatched spectrum of `dirC3` yields
`min 2 1 = 1` record. -/
theorem c3_amended_zip_truncates_witness :
    strEndsWith ("a.mzML".toList) (".mzML".toList) = true ∧
    (build_spectra_cache
      [("a.mzML".toList,
        [{ ms_level := 2, native_id := "scan=7".toList, mz_array := [1, 2],
           int_array := [10] }])] []).1.length = min 2 1 :=
  ⟨by decide,
   c3_amended_zip_truncates ("a.mzML".toList)
     { ms_level := 2, native_id := "scan=7".toList, mz_array := [1, 2], int_array := [10] }
     [] (by decide) rfl⟩

/-- Concrete document for the C4 counterexample: `id_merge_index` is
present but out of range of the one-element source filename list. -/
def docC4 : IdXMLDocument :=
  { embedded_spectra_data := []
    peptides :=
      [{ rt := 0, mz := 0, spectrum_reference := none, id_merge_index := some 5,
         hits := [{ sequence := "K".toList, charge := 1, score := 0,
                    protein_evidences := [] }] }] }

/-- C4 counterexample: with `id_merge_index = 5` and a source filename
list of length 1, the emitted `file_index` is 5 (with an empty
filename), not the 0 the claim requires for an out-of-range value. -/
theorem c4_counterexample :
    (parse_idxml ("x.idXML".toList) docC4).2.length = 1 ∧
    (parse_idxml ("x.idXML".toList) docC4).1.map (fun r => (r.file_index, r.filename)) =
      [(5, [])] ∧
    ¬ (5 : Nat) < 1 := by decide

/-- C4 amended: `file_index` equals the `id_merge_index` meta value
whenever it is present — also when it is out of range of the source
filename list, in which case only the resolved filename degrades to
the empty string — and defaults to 0 only when the meta value is
absent. -/
theorem c4_amended_file_index_metadata (path : Str) (doc : IdXMLDocument) :
    (parse_idxml path doc).1.map (fun r => (r.file_index, r.filename)) =
      (doc.peptides.map (fun p => p.hits.map (fun _ =>
        (entryFileIndex p, entryFilename [extract_filename_from_idxml path] p)))).flatten ∧
    (∀ (p : PeptideIdentification) (n : Nat), p.id_merge_index = some n → entryFileIndex p = n) ∧
    (∀ p : PeptideIdentification, p.id_merge_index = none → entryFileIndex p = 0) ∧
    (∀ (sd : List Str) (p : PeptideIdentification), ¬ entryFileIndex p < sd.length →
      entryFilename sd p = []) := by
  refine ⟨?_, ?_, ?_, ?_⟩
  · show (psmRecordsAux _ doc.peptides []).map _ = _
    rw [psmRecordsAux_map _ _ (fun p _ =>
      (entryFileIndex p, entryFilename [extract_filename_from_idxml path] p)) (fun p n h => rfl)]
    simp
  · intro p n h
    simp [entryFileIndex, h]
  · intro p h
    simp [entryFileIndex, h]
  · intro sd p h
    simp [entryFilename, if_neg h]

/-- C4 witness: present metadata is used as-is (even out of range);
absent metadata defaults to 0. -/
theorem c4_amended_file_index_metadata_witness :
    (parse_idxml ("x.idXML".toList) docC4).1.map (fun r => (r.file_index, r.filename)) =
      (docC4.peptides.map (fun p => p.hits.map (fun _ =>
        (entryFileIndex p, entryFilename [extract_filename_from_idxml ("x.idXML".toList)] p)))).flatten ∧
    entryFileIndex
      { rt := 0, mz := 0, spectrum_reference := none, id_merge_index := some 5, hits := [] } = 5 ∧
    entryFileIndex
      { rt := 0, mz := 0, spectrum_reference := none, id_merge_index := none, hits := [] } = 0 :=
  ⟨(c4_amended_file_index_metadata ("x.idXML".toList) docC4).1,
   (c4_amended_file_index_metadata ("x.idXML".toList) docC4).2.1 _ 5 rfl,
   (c4_amended_file_index_metadata ("x.idXML".toList) docC4).2.2.1 _ rfl⟩

/-- C5: `build_spectra_cache` folds over the lexicographically sorted
`.mzML` listing starting from an empty table and `peak_id = 0`; with
aligned peak arrays the row count is the sum of peak counts over
MS-level-2 spectra only (other levels contribute nothing), and
`peak_id` is the contiguous range `0..n-1` across the whole scan, never
reset per file. -/
theorem c5_spectra_cache_builder (dir : List MzMLFileEntry) (m : FMap)
    (haligned : ∀ f ∈ dir, ∀ s ∈ f.2, s.mz_array.length = s.int_array.length) :
    (build_spectra_cache dir m).1 = ((processFiles (globSortedMzML dir) m ([], 0)).1).1 ∧
    (build_spectra_cache dir m).1.length =
      ((dir.filter (fun f => strEndsWith f.1 (".mzML".toList))).map
        (fun f => ((f.2.filter (fun s => s.ms_level = 2)).map
          (fun s => s.mz_array.length)).sum)).sum ∧
    (∀ i (hi : i < (build_spectra_cache dir m).1.length),
      ((build_spectra_cache dir m).1[i]).peak_id = i) := by
  refine ⟨rfl, ?_, ?_⟩
  · rw [build_spectra_cache_length]
    apply congrArg List.sum
    apply List.map_congr_left
    intro f hf
    have hf' : f ∈ dir := List.mem_of_mem_filter hf
    unfold spectraPeakCount
    apply congrArg List.sum
    apply List.map_congr_left
    intro s hs
    have hs' : s ∈ f.2 := List.mem_of_mem_filter hs
    rw [haligned f hf' s hs']
    exact Nat.min_self _
  · intro i hi
    have hinv : PeakInv (([] : List FlatPeakRecord), 0) := ⟨rfl, fun j hj => by simp at hj⟩
    exact (processFiles_inv (globSortedMzML dir) m ([], 0) hinv).2 i hi

/-- Concrete directory for the C5 witness: an MS1 spectrum (ignored), an
MS2 spectrum with 3 peaks, a second file with 1 peak, and a non-mzML
file (ignored). -/
def dirC5 : List MzMLFileEntry :=
  [("b.mzML".toList,
    [{ ms_level := 1, native_id := "scan=1".toList, mz_array := [5], int_array := [6] },
     { ms_level := 2, native_id := "scan=42".toList, mz_array := [1, 2, 3],
       int_array := [10, 20, 30] }]),
   ("a.mzML".toList,
    [{ ms_level := 2, native_id := "scan=7".toList, mz_array := [4], int_array := [40] }]),
   ("c.txt".toList,
    [{ ms_level := 2, native_id := "scan=9".toList, mz_array := [8], int_array := [80] }])]

/-- C5 witness: 4 rows (3 + 1 MS2 peaks), with `peak_id = 2` at
position 2. -/
theorem c5_spectra_cache_builder_witness :
    (∀ f ∈ dirC5, ∀ s ∈ f.2, s.mz_array.length = s.int_array.length) ∧
    (build_spectra_cache dirC5 []).1.length =
      ((dirC5.filter (fun f => strEndsWith f.1 (".mzML".toList))).map
        (fun f => ((f.2.filter (fun s => s.ms_level = 2)).map
          (fun s => s.mz_array.length)).sum)).sum ∧
    ((build_spectra_cache dirC5 []).1.get ⟨2, by decide⟩).peak_id = 2 := by
  refine ⟨by decide, (c5_spectra_cache_builder dirC5 [] (by decide)).2.1, ?_⟩
  have h := (c5_spectra_cache_builder dirC5 [] (by decide)).2.2 2 (by decide)
  simpa using h

/-- Concrete document for the C7 counterexample: two metadata-free
entries whose hits resolve to the same `(file_index, scan_id)` key. -/
def docC7 : IdXMLDocument :=
  { embedded_spectra_data := []
    peptides :=
      [{ rt := 0, mz := 0, spectrum_reference := none, id_merge_index := none,
         hits := [{ sequence := "AAA".toList, charge := 1, score := 0,
                    protein_evidences := [] }] },
       { rt := 1, mz := 1, spectrum_reference := none, id_merge_index := none,
         hits := [{ sequence := "CCC".toList, charge := 1, score := 0,
                    protein_evidences := [] }] }] }

/-- C7 counterexample: the hits of two distinct entries both resolve to
the key `(0, 0)`, so the `(file_index, scan_id)` group mixes hits of
distinct source entries. -/
theorem c7_counterexample :
    docC7.peptides.length = 2 ∧
    (docC7.peptides.map (fun p => p.hits.map (fun h => h.sequence))) =
      [["AAA".toList], ["CCC".toList]] ∧
    (parse_idxml ("x.idXML".toList) docC7).1.map
      (fun r => (r.file_index, r.scan_id, r.sequence)) =
      [(0, 0, "AAA".toList), (0, 0, "CCC".toList)] := by decide

/-- C7 amended: all records of one entry carry that entry's resolved
`(file_index, scan_id)` key — grouping by the key never splits an
entry's hits — but entries that resolve to the same key (e.g. two
metadata-free entries, both defaulting to `(0, 0)`) are merged into one
group. -/
theorem c7_amended_grouping (path : Str) (doc : IdXMLDocument) :
    (parse_idxml path doc).1.map (fun r => (r.file_index, r.scan_id)) =
      (doc.peptides.map (fun p => p.hits.map
        (fun _ => (entryFileIndex p, entryScan p)))).flatten := by
  show (psmRecordsAux _ doc.peptides []).map _ = _
  rw [psmRecordsAux_map _ _ (fun p _ => (entryFileIndex p, entryScan p)) (fun p n h => rfl)]
  simp

/-- C9: `build_spectra_cache` never changes the index of a filename
already in the map (every input binding is preserved), and extends the
map only by appending, each new filename getting index
`len(filename_to_index)` — the map's size at its first encounter, in
file-processing order. -/
theorem c9_filename_index_map_stable (dir : List MzMLFileEntry) (m : FMap) :
    (∀ k v, fmapLookup m k = some v → fmapLookup (build_spectra_cache dir m).2 k = some v) ∧
    (∃ ext : FMap, (build_spectra_cache dir m).2 = m ++ ext ∧
      ∀ j (hj : j < ext.length), (ext[j]).2 = m.length + j) := by
  obtain ⟨ext, hext, hidx⟩ := processFiles_fmap (globSortedMzML dir) m ([], 0)
  have hbuild : (build_spectra_cache dir m).2 =
      (processFiles (globSortedMzML dir) m ([], 0)).2 := rfl
  constructor
  · intro k v hkv
    rw [hbuild, hext]
    exact fmapLookup_append _ _ _ _ hkv
  · exact ⟨ext, by rw [hbuild]; exact hext, hidx⟩

/-- C9 witness: an existing binding survives a scan that adds a new
file. -/
theorem c9_filename_index_map_stable_witness :
    fmapLookup [("x.mzML".toList, 0)] ("x.mzML".toList) = some 0 ∧
    fmapLookup (build_spectra_cache [("a.mzML".toList, [])] [("x.mzML".toList, 0)]).2
      ("x.mzML".toList) = some 0 :=
  ⟨by decide,
   (c9_filename_index_map_stable [("a.mzML".toList, [])] [("x.mzML".toList, 0)]).1 _ 0
     (by decide)⟩

end QuantmsWeb
